import Mathlib

/-!
Verification of the charcoin keep-alive bot (src/bot.py).

Timestamps are modelled as rational numbers measured in hours of UTC time,
so that the 24-hour pruning horizon of the spend guard is `now - 24`.
USD amounts are modelled as rationals (the Python source uses binary
floats; every property proved here is rounding-independent and the
concrete scenarios behave identically under floats).
Network interactions are modelled by passing the responses the HTTP
helpers would return as explicit `Except` values; an `Except.error` is a
Python exception propagating out of the corresponding call.
-/

/-- A spend event, `(timestamp, usd amount)`, as stored in
`_last_spend_events`. -/
abbrev SpendEvent : Type := ℚ × ℚ

/-- The `_last_spend_events` list. -/
abbrev SpendLedger : Type := List SpendEvent

/-- The pruning loop of `can_spend_usd`:
`while _last_spend_events and _last_spend_events[0][0] < cutoff: pop(0)`.
It removes entries from the FRONT while the head is older than the cutoff,
and stops at the first entry that is not. -/
def pruneFront (cutoff : ℚ) : SpendLedger → SpendLedger
  | [] => []
  | (t, a) :: rest => if t < cutoff then pruneFront cutoff rest else (t, a) :: rest

/-- `sum(a for _, a in events)`. -/
def spentSum (l : SpendLedger) : ℚ := (l.map Prod.snd).sum

/-- Sum of the amounts of the events lying within the trailing 24 hours
of `now` (the quantity the spec's invariants speak about). -/
def freshSum (now : ℚ) (l : SpendLedger) : ℚ :=
  spentSum (l.filter fun e => decide (now - 24 ≤ e.1))

/-- `can_spend_usd(amount)`.  Besides the boolean verdict it returns the
ledger as mutated by the pruning loop (the Python function mutates the
global `_last_spend_events` in place). -/
def can_spend_usd (cap : ℚ) (now : ℚ) (amount : ℚ) (l : SpendLedger) :
    Bool × SpendLedger :=
  let cutoff := now - 24
  let pruned := pruneFront cutoff l
  (decide (spentSum pruned + amount ≤ cap), pruned)

/-- `record_spend_usd(amount)`: append `(now, amount)`. -/
def record_spend_usd (now : ℚ) (amount : ℚ) (l : SpendLedger) : SpendLedger :=
  l ++ [(now, amount)]

/-- The SpendLedger ordering invariant of the data model: entries are
ordered by timestamp ascending (events are always appended at the
current time). -/
def TimeSorted (l : SpendLedger) : Prop :=
  l.Pairwise fun e f => e.1 ≤ f.1

instance timeSortedDecidable (l : SpendLedger) : Decidable (TimeSorted l) :=
  List.instDecidablePairwise l

/-- On a timestamp-sorted ledger the front-pruning loop removes exactly
the entries strictly older than the cutoff. -/
lemma pruneFront_sorted (c : ℚ) :
    ∀ l : SpendLedger, TimeSorted l →
      pruneFront c l = l.filter fun e => decide (c ≤ e.1) := by
  intro l
  induction l with
  | nil => intro _; rfl
  | cons e rest ih =>
    intro h
    rw [TimeSorted, List.pairwise_cons] at h
    obtain ⟨hhead, htail⟩ := h
    obtain ⟨t, a⟩ := e
    by_cases ht : t < c
    · have hnotc : ¬ c ≤ t := not_le.mpr ht
      rw [pruneFront, if_pos ht, ih htail, List.filter_cons_of_neg]
      simp [hnotc]
    · have hc : c ≤ t := not_lt.mp ht
      have hrest : rest.filter (fun e => decide (c ≤ e.1)) = rest := by
        apply List.filter_eq_self.mpr
        intro x hx
        exact decide_eq_true (le_trans hc (hhead x hx))
      rw [pruneFront, if_neg ht, List.filter_cons_of_pos, hrest]
      simp [hc]

/-- Evaluation of `can_spend_usd` on a sorted ledger. -/
lemma can_spend_usd_eq (cap now amount : ℚ) (l : SpendLedger)
    (h : TimeSorted l) :
    can_spend_usd cap now amount l =
      (decide (freshSum now l + amount ≤ cap),
       l.filter fun e => decide (now - 24 ≤ e.1)) := by
  simp only [can_spend_usd]
  rw [pruneFront_sorted (now - 24) l h]
  rfl

/-- C1: For every (timestamp-ascending, per the SpendLedger data-model
invariant) ledger state and every proposed amount, `can_spend_usd` first
removes exactly the entries whose timestamp is older than 24 hours before
the current time, sums the remaining amounts, and answers true iff that
sum plus the proposed amount is at most the daily cap. -/
theorem can_spend_usd_correct (cap now amount : ℚ) (l : SpendLedger)
    (h : TimeSorted l) :
    (can_spend_usd cap now amount l).2 =
        (l.filter fun e => decide (now - 24 ≤ e.1)) ∧
      ((can_spend_usd cap now amount l).1 = true ↔
        freshSum now l + amount ≤ cap) := by
  rw [can_spend_usd_eq cap now amount l h]
  exact ⟨rfl, Iff.of_eq decide_eq_true_eq⟩

/-- C1 witness: a concrete sorted ledger with one stale and one fresh
entry, cap 1, proposed amount 1/10, at time 30. -/
theorem can_spend_usd_correct_witness :
    (can_spend_usd 1 30 (1/10) [(0, 1/2), (20, 1/4)]).2 =
        ([((0:ℚ), (1/2:ℚ)), (20, 1/4)].filter fun e => decide (30 - 24 ≤ e.1)) ∧
      ((can_spend_usd 1 30 (1/10) [(0, 1/2), (20, 1/4)]).1 = true ↔
        freshSum 30 [((0:ℚ), (1/2:ℚ)), (20, 1/4)] + 1/10 ≤ 1) :=
  can_spend_usd_correct 1 30 (1/10) [(0, 1/2), (20, 1/4)] (by decide)

/-- C8 counterexample: on a ledger NOT ordered by timestamp (fresh entry
in front of a stale one) the pruning loop stops at the fresh head, so the
stale event `(0, 7)` survives pruning at time 30 (cutoff 6) and still
contributes to the computed spend sum, contradicting the claim that
events older than 24 hours never contribute regardless of insertion
order. -/
theorem prune_order_cex :
    ((0:ℚ), (7:ℚ)) ∈ (can_spend_usd 1 30 0 [(10, 5), (0, 7)]).2 ∧
      ((0:ℚ) < 30 - 24) ∧
      spentSum (can_spend_usd 1 30 0 [(10, 5), (0, 7)]).2 ≠
        freshSum 30 [((10:ℚ), (5:ℚ)), (0, 7)] := by
  have h10 : ¬ ((10:ℚ) < 30 - 24) := by norm_num
  have hpr : (can_spend_usd 1 30 0 [(10, 5), (0, 7)]).2 = [(10, 5), (0, 7)] := by
    simp only [can_spend_usd, pruneFront, if_neg h10]
  refine ⟨?_, by norm_num, ?_⟩
  · rw [hpr]
    simp
  · rw [hpr]
    have h0 : ¬ ((30:ℚ) - 24 ≤ 0) := by norm_num
    have h10b : ((30:ℚ) - 24 ≤ 10) := by norm_num
    simp only [freshSum, List.filter_cons, h0, h10b, decide_True, decide_False,
      List.filter_nil, spentSum]
    norm_num

/-- C8 amended: provided the ledger is ordered by timestamp ascending (as
the program maintains by always appending at the current time), after the
pruning step of `can_spend_usd` every surviving event is within the
trailing 24 hours, and the computed spend sum counts exactly the fresh
events. -/
theorem prune_monotonic_sorted (cap now amount : ℚ) (l : SpendLedger)
    (h : TimeSorted l) :
    (∀ e ∈ (can_spend_usd cap now amount l).2, now - 24 ≤ e.1) ∧
      spentSum (can_spend_usd cap now amount l).2 = freshSum now l := by
  rw [can_spend_usd_eq cap now amount l h]
  constructor
  · intro e he
    have := (List.mem_filter.mp he).2
    exact of_decide_eq_true this
  · rfl

/-- C8 amended witness: the sorted version of the counterexample ledger;
at time 30 the stale entry is pruned and only the fresh sum remains. -/
theorem prune_monotonic_sorted_witness :
    (∀ e ∈ (can_spend_usd 1 30 0 [(0, 7), (10, 5)]).2, (30:ℚ) - 24 ≤ e.1) ∧
      spentSum (can_spend_usd 1 30 0 [(0, 7), (10, 5)]).2 =
        freshSum 30 [((0:ℚ), (7:ℚ)), (10, 5)] :=
  prune_monotonic_sorted 1 30 0 [(0, 7), (10, 5)] (by decide)

/-- A Jupiter quote response: only `outAmount` is interpreted; the rest
of the route structure is opaque and carried through untouched. -/
structure ProbeQuote where
  outAmount : ℤ
  routePlan : List String
deriving DecidableEq

/-- Python `int(x)` on a rational value: truncation toward zero. -/
def pyInt (x : ℚ) : ℤ := if 0 ≤ x then ⌊x⌋ else ⌈x⌉

/-- `usd_per_sol = max(usdc_for_001_sol * 1000.0, 0.01)` computed from the
probe quote's `outAmount` (USDC has 6 decimals). -/
def usd_per_sol (q : ProbeQuote) : ℚ :=
  max ((q.outAmount : ℚ) / 1000000 * 1000) (1 / 100)

/-- The pure arithmetic of `get_usd_to_input_mint_amount` once the probe
quote is in hand: lamports needed for `usd_target`, floored to an integer
and clamped below at 1. -/
def usdToLamports (q : ProbeQuote) (usd_target : ℚ) : ℤ :=
  max 1 (pyInt (usd_target / usd_per_sol q * 1000000000))

/-- `get_usd_to_input_mint_amount(usd_target)`; the probe quote request
may fail (exception from `http_get`). -/
def get_usd_to_input_mint_amount (probe : Except String ProbeQuote)
    (usd_target : ℚ) : Except String ℤ :=
  match probe with
  | .error e => .error e
  | .ok q => .ok (usdToLamports q usd_target)

/-- C3: the Quote Converter is deterministic in the probe quote's output
(two quotes with the same `outAmount` give the same smallest-unit amount
for the same target), its result is always at least 1, and the implied
price it divides by is floored at the positive epsilon 1/100. -/
theorem quote_converter_props (q1 q2 : ProbeQuote) (usd_target : ℚ)
    (h : q1.outAmount = q2.outAmount) :
    usdToLamports q1 usd_target = usdToLamports q2 usd_target ∧
      1 ≤ usdToLamports q1 usd_target ∧
      (1 : ℚ) / 100 ≤ usd_per_sol q1 := by
  have hp : usd_per_sol q1 = usd_per_sol q2 := by
    unfold usd_per_sol
    rw [h]
  refine ⟨?_, le_max_left 1 _, le_max_right _ _⟩
  unfold usdToLamports
  rw [hp]

/-- C3 witness: two probe quotes differing only in their opaque route
data. -/
theorem quote_converter_props_witness :
    usdToLamports ⟨20000000, ["routeA"]⟩ (3/10) =
        usdToLamports ⟨20000000, []⟩ (3/10) ∧
      1 ≤ usdToLamports ⟨20000000, ["routeA"]⟩ (3/10) ∧
      (1 : ℚ) / 100 ≤ usd_per_sol ⟨20000000, ["routeA"]⟩ :=
  quote_converter_props ⟨20000000, ["routeA"]⟩ ⟨20000000, []⟩ (3/10) rfl

/-- One `txns` bucket of a dexscreener pair entry, with the `.get(_, 0)`
defaults applied. -/
structure TxnBucket where
  buys : ℤ
  sells : ℤ
deriving DecidableEq

/-- The `txns` object of a pair entry; a missing bucket is `{}`, i.e.
both counts default to 0. -/
structure PairTxns where
  m5 : Option TxnBucket
  h1 : Option TxnBucket
  h24 : Option TxnBucket
deriving DecidableEq

/-- One entry of the dexscreener token response. -/
structure DexPair where
  txns : PairTxns
deriving DecidableEq

/-- Bucket selection of `has_no_trades_last_x`: `mins <= 5 → m5`,
`mins <= 60 → h1`, otherwise `h24`. -/
def selectBucket (mins : ℤ) (t : PairTxns) : TxnBucket :=
  if mins ≤ 5 then t.m5.getD ⟨0, 0⟩
  else if mins ≤ 60 then t.h1.getD ⟨0, 0⟩
  else t.h24.getD ⟨0, 0⟩

/-- `total_buys + total_sells` accumulated over all returned pairs for
the selected bucket. -/
def totalTxns (mins : ℤ) (ps : List DexPair) : ℤ :=
  (ps.map fun p => (selectBucket mins p.txns).buys + (selectBucket mins p.txns).sells).sum

/-- `has_no_trades_last_x(mins)`.  The market-data response is passed in:
`.error` is an exception from `http_get` (propagates), `.ok none` is a
non-list response, `.ok (some ps)` is a JSON list. -/
def has_no_trades_last_x (mockInactive : Bool) (mins : ℤ)
    (fetch : Except String (Option (List DexPair))) : Except String Bool :=
  if mockInactive then .ok true
  else
    match fetch with
    | .error e => .error e
    | .ok none => .ok true
    | .ok (some []) => .ok true
    | .ok (some ps) => .ok (decide (totalTxns mins ps = 0))

/-- `activity_ok()`: negate the no-trades test for the window selected by
`TEST_MODE`. -/
def activity_ok (mockInactive testMode : Bool)
    (fetch : Except String (Option (List DexPair))) : Except String Bool :=
  match has_no_trades_last_x mockInactive (if testMode then 1 else 1440) fetch with
  | .error e => .error e
  | .ok b => .ok (!b)

/-- C4: with the mock override off, the Activity Monitor reports
"inactive" (no trades) exactly when the buys+sells total over all entries
for the selected bucket is zero, reports "active" whenever that total is
positive, and treats a malformed (non-list) or empty response as
"inactive". -/
theorem activity_monitor_correct (mins : ℤ) :
    has_no_trades_last_x false mins (Except.ok none) = Except.ok true ∧
      has_no_trades_last_x false mins (Except.ok (some [])) = Except.ok true ∧
      (∀ ps : List DexPair,
        (has_no_trades_last_x false mins (Except.ok (some ps)) = Except.ok true ↔
          totalTxns mins ps = 0)) ∧
      (∀ ps : List DexPair, 0 < totalTxns mins ps →
        has_no_trades_last_x false mins (Except.ok (some ps)) = Except.ok false) := by
  refine ⟨rfl, rfl, ?_, ?_⟩
  · intro ps
    cases ps with
    | nil =>
      simp [has_no_trades_last_x, totalTxns]
    | cons p rest =>
      simp [has_no_trades_last_x]
  · intro ps hpos
    cases ps with
    | nil =>
      simp [totalTxns] at hpos
    | cons p rest =>
      have : ¬ totalTxns mins (p :: rest) = 0 := by
        intro h0
        rw [h0] at hpos
        exact lt_irrefl 0 hpos
      simp [has_no_trades_last_x, this]

/-- C4 witness, matching the spec's end-to-end scenario 3: a single pair
with `h24.buys = 3, h24.sells = 0` is reported active for the 1440-minute
window. -/
theorem activity_monitor_correct_witness :
    has_no_trades_last_x false 1440
        (Except.ok (some [⟨⟨none, none, some ⟨3, 0⟩⟩⟩])) = Except.ok false :=
  (activity_monitor_correct 1440).2.2.2 [⟨⟨none, none, some ⟨3, 0⟩⟩⟩] (by decide)

/-- `ensure_wallet_ready()`.  `derivePub` abstracts
`Keypair.from_bytes(b58decode(secret)).pubkey()` (`none` when decoding
raises), and `balance` abstracts the RPC `get_balance` call.  Errors are
`SystemExit`/exceptions aborting startup. -/
def ensure_wallet_ready (dryRun : Bool) (publicKey walletSecret : String)
    (derivePub : String → Option String) (balance : Except String ℤ) :
    Except String Unit :=
  if dryRun then .ok ()
  else if publicKey = "" ∨ walletSecret = "" then
    .error "PUBLIC_KEY and WALLET_SECRET_B58 required."
  else
    match derivePub walletSecret with
    | none => .error "invalid WALLET_SECRET_B58"
    | some derived =>
      if derived ≠ publicKey then
        .error "PUBLIC_KEY does not match WALLET_SECRET_B58"
      else
        match balance with
        | .error e => .error e
        | .ok _ => .ok ()

/-- C10: with the dry-run flag set, the startup wallet-readiness check
returns successfully at once, for every credential configuration —
including empty credentials and a public key that does not match the one
derived from the secret — and never consults the derivation or the
balance endpoint. -/
theorem ensure_wallet_ready_dry_run (publicKey walletSecret : String)
    (derivePub : String → Option String) (balance : Except String ℤ) :
    ensure_wallet_ready true publicKey walletSecret derivePub balance =
      Except.ok () := rfl

/-- Network-visible side effects of one keep-alive attempt. -/
inductive Effect
  | quoteGet
  | swapPost
  | sendTx
deriving DecidableEq

/-- The responses the swap path would receive: the route-quote GET, the
`swapTransaction` field of the swap-build POST (`none` when the field is
missing), and the confirmation identifier of `send_raw_transaction`
(`none` when the response carries no identifier). -/
structure SwapNet where
  quoteResult : Except String Unit
  swapTx : Except String (Option String)
  sendResult : Except String (Option String)

/-- `build_and_send_swap(input_amount_raw)`: route quote, then — unless
`DRY_RUN` — swap build, sign and submit.  Returns the result together
with the list of network interactions performed. -/
def build_and_send_swap (dryRun : Bool) (net : SwapNet) (_inputAmountRaw : ℤ) :
    Except String String × List Effect :=
  match net.quoteResult with
  | .error e => (.error e, [Effect.quoteGet])
  | .ok _ =>
    if dryRun then (.ok "dryrun-sig", [Effect.quoteGet])
    else
      match net.swapTx with
      | .error e => (.error e, [Effect.quoteGet, Effect.swapPost])
      | .ok none =>
        (.error "Swap API returned no transaction",
         [Effect.quoteGet, Effect.swapPost])
      | .ok (some _) =>
        match net.sendResult with
        | .error e => (.error e, [Effect.quoteGet, Effect.swapPost, Effect.sendTx])
        | .ok none =>
          (.error "send_raw_transaction failed",
           [Effect.quoteGet, Effect.swapPost, Effect.sendTx])
        | .ok (some sig) =>
          (.ok sig, [Effect.quoteGet, Effect.swapPost, Effect.sendTx])

/-- The environment one `do_keepalive_once` call runs against: the probe
quote for amount conversion and the swap-path responses. -/
structure KAEnv where
  probe : Except String ProbeQuote
  net : SwapNet

/-- An environment in which every network call succeeds. -/
def mkOkEnv (q : ProbeQuote) (tx sig : String) : KAEnv :=
  ⟨.ok q, ⟨.ok (), .ok (some tx), .ok (some sig)⟩⟩

/-- `do_keepalive_once(usd_amount)`: guard admission (which prunes the
ledger in place), amount conversion, swap, and — only on success and not
under `DRY_RUN` — recording.  Returns (result, ledger after the call,
network effects). -/
def do_keepalive_once (cap : ℚ) (dryRun : Bool) (now usd_amount : ℚ)
    (env : KAEnv) (l : SpendLedger) :
    Except String String × SpendLedger × List Effect :=
  match can_spend_usd cap now usd_amount l with
  | (false, l1) => (.error "Daily cap reached", l1, [])
  | (true, l1) =>
    match get_usd_to_input_mint_amount env.probe usd_amount with
    | .error e => (.error e, l1, [Effect.quoteGet])
    | .ok amtRaw =>
      match build_and_send_swap dryRun env.net amtRaw with
      | (.error e, effs) => (.error e, l1, Effect.quoteGet :: effs)
      | (.ok sig, effs) =>
        if dryRun then (.ok sig, l1, Effect.quoteGet :: effs)
        else (.ok sig, record_spend_usd now usd_amount l1, Effect.quoteGet :: effs)

/-- Rejection branch of `do_keepalive_once`. -/
lemma keepalive_reject (cap : ℚ) (dry : Bool) (now a : ℚ) (env : KAEnv)
    (l : SpendLedger) (h : (can_spend_usd cap now a l).1 = false) :
    do_keepalive_once cap dry now a env l =
      (Except.error "Daily cap reached", (can_spend_usd cap now a l).2, []) := by
  rcases hc : can_spend_usd cap now a l with ⟨ok, l1⟩
  rw [hc] at h
  simp only at h
  subst h
  simp [do_keepalive_once, hc]

/-- Success branch of `do_keepalive_once` in an all-successful
environment, not in dry-run mode: the swap's identifier is returned and
the spend is recorded on the pruned ledger. -/
lemma keepalive_okEnv (cap now a : ℚ) (q : ProbeQuote) (tx sig : String)
    (l : SpendLedger) (h : (can_spend_usd cap now a l).1 = true) :
    do_keepalive_once cap false now a (mkOkEnv q tx sig) l =
      (Except.ok sig, record_spend_usd now a (can_spend_usd cap now a l).2,
       [Effect.quoteGet, Effect.quoteGet, Effect.swapPost, Effect.sendTx]) := by
  rcases hc : can_spend_usd cap now a l with ⟨ok, l1⟩
  rw [hc] at h
  simp only at h
  subst h
  simp [do_keepalive_once, hc, get_usd_to_input_mint_amount, build_and_send_swap, mkOkEnv]

/-- C6 amended: under the dry-run flag, `do_keepalive_once` never posts a
swap build and never submits a transaction, never records a spend (the
ledger after the call is exactly the ledger as pruned by the admission
check — no entry is ever added), and any identifier it returns is the
sentinel `"dryrun-sig"`. -/
theorem dry_run_frame (cap now a : ℚ) (env : KAEnv) (l : SpendLedger) :
    Effect.sendTx ∉ (do_keepalive_once cap true now a env l).2.2 ∧
      Effect.swapPost ∉ (do_keepalive_once cap true now a env l).2.2 ∧
      (do_keepalive_once cap true now a env l).2.1 = (can_spend_usd cap now a l).2 ∧
      (∀ s, (do_keepalive_once cap true now a env l).1 = Except.ok s →
        s = "dryrun-sig") := by
  obtain ⟨probe, qr, st, sr⟩ := env
  rcases hc : can_spend_usd cap now a l with ⟨ok, l1⟩
  have h2 : (can_spend_usd cap now a l).2 = l1 := by rw [hc]
  cases ok
  · simp [do_keepalive_once, hc, h2]
  · cases probe with
    | error e => simp [do_keepalive_once, hc, h2, get_usd_to_input_mint_amount]
    | ok q =>
      cases qr with
      | error e =>
        simp [do_keepalive_once, hc, h2, get_usd_to_input_mint_amount,
          build_and_send_swap]
      | ok u =>
        simp [do_keepalive_once, hc, h2, get_usd_to_input_mint_amount,
          build_and_send_swap]

/-- C6 amended witness: a concrete dry-run call on a ledger holding one
stale entry. -/
theorem dry_run_frame_witness :
    Effect.sendTx ∉
        (do_keepalive_once 1 true 30 (1/10) (mkOkEnv ⟨20000000, []⟩ "tx" "s")
          [(0, 1/10)]).2.2 ∧
      Effect.swapPost ∉
        (do_keepalive_once 1 true 30 (1/10) (mkOkEnv ⟨20000000, []⟩ "tx" "s")
          [(0, 1/10)]).2.2 ∧
      (do_keepalive_once 1 true 30 (1/10) (mkOkEnv ⟨20000000, []⟩ "tx" "s")
          [(0, 1/10)]).2.1 =
        (can_spend_usd 1 30 (1/10) [(0, 1/10)]).2 ∧
      (∀ s,
        (do_keepalive_once 1 true 30 (1/10) (mkOkEnv ⟨20000000, []⟩ "tx" "s")
            [(0, 1/10)]).1 = Except.ok s →
          s = "dryrun-sig") :=
  dry_run_frame 1 30 (1/10) (mkOkEnv ⟨20000000, []⟩ "tx" "s") [(0, 1/10)]

/-- C6 counterexample: a dry-run execution that succeeds with the
sentinel, calls `record_spend_usd` zero times — and still leaves the
spend ledger CHANGED, because the admission check inside
`do_keepalive_once` pops the stale entry `(0, 1/10)` from the ledger in
place.  "Leaving the spend ledger unchanged" is therefore false as
stated. -/
theorem dry_run_ledger_cex :
    (do_keepalive_once 1 true 30 (1/10) (mkOkEnv ⟨20000000, []⟩ "tx" "s")
        [(0, 1/10)]).1 = Except.ok "dryrun-sig" ∧
      (do_keepalive_once 1 true 30 (1/10) (mkOkEnv ⟨20000000, []⟩ "tx" "s")
          [(0, 1/10)]).2.1 ≠ [((0:ℚ), (1/10:ℚ))] := by
  have h : ((0:ℚ) < 30 - 24) := by norm_num
  have hcs : can_spend_usd 1 30 (1/10) [(0, 1/10)] = (true, []) := by
    simp only [can_spend_usd, pruneFront, if_pos h]
    norm_num [spentSum]
  constructor
  · simp only [do_keepalive_once, get_usd_to_input_mint_amount,
      build_and_send_swap, mkOkEnv]
    rw [hcs]
    simp
  · simp only [do_keepalive_once, get_usd_to_input_mint_amount,
      build_and_send_swap, mkOkEnv]
    rw [hcs]
    simp

/-- A run of consecutive keep-alive buys: for each `(now, amount)` pair,
one `do_keepalive_once` call, threading the mutable ledger; the list of
per-call results is returned. -/
def runSpends (cap : ℚ) (dry : Bool) (env : KAEnv) :
    SpendLedger → List (ℚ × ℚ) → List (Except String String)
  | _, [] => []
  | l, (now, a) :: rest =>
    let o := do_keepalive_once cap dry now a env l
    o.1 :: runSpends cap dry env o.2.1 rest

/-- `can_spend_usd` on the empty ledger. -/
lemma can_spend_nil_eval (cap now a : ℚ) :
    can_spend_usd cap now a [] = (decide ((0:ℚ) + a ≤ cap), []) := by
  simp only [can_spend_usd, pruneFront, spentSum, List.map_nil, List.sum_nil]

/-- `can_spend_usd` on a ledger whose head is not stale: the pruning loop
stops immediately and nothing is removed. -/
lemma can_spend_cons_eval (cap now a t1 amt1 : ℚ) (rest : SpendLedger)
    (h : ¬ t1 < now - 24) :
    can_spend_usd cap now a ((t1, amt1) :: rest) =
      (decide (spentSum ((t1, amt1) :: rest) + a ≤ cap), (t1, amt1) :: rest) := by
  simp only [can_spend_usd, pruneFront, if_neg h]

/-- C5 counterexample: with cap $1.00 and micro-buy $0.30, three
consecutive successful inactive-and-buy cycles within one day ALL
succeed — the third is admitted (cumulative 0.90 ≤ 1.00), contradicting
the claim that the third is rejected. -/
theorem scenario1_cex :
    runSpends 1 false (mkOkEnv ⟨20000000, []⟩ "tx" "s") []
        [(0, 3/10), (1, 3/10), (2, 3/10)] =
      [Except.ok "s", Except.ok "s", Except.ok "s"] := by
  have hc1 : can_spend_usd 1 0 (3/10) [] = (true, []) := by
    rw [can_spend_nil_eval]
    norm_num
  have hc2 : can_spend_usd 1 1 (3/10) [(0, 3/10)] = (true, [(0, 3/10)]) := by
    rw [can_spend_cons_eval 1 1 (3/10) 0 (3/10) [] (by norm_num)]
    norm_num [spentSum]
  have hc3 : can_spend_usd 1 2 (3/10) [(0, 3/10), (1, 3/10)] =
      (true, [(0, 3/10), (1, 3/10)]) := by
    rw [can_spend_cons_eval 1 2 (3/10) 0 (3/10) [(1, 3/10)] (by norm_num)]
    norm_num [spentSum]
  simp only [runSpends]
  rw [keepalive_okEnv 1 0 (3/10) ⟨20000000, []⟩ "tx" "s" [] (by rw [hc1])]
  simp only [hc1, record_spend_usd, List.nil_append]
  rw [keepalive_okEnv 1 1 (3/10) ⟨20000000, []⟩ "tx" "s" [(0, 3/10)] (by rw [hc2])]
  simp only [hc2, record_spend_usd, List.cons_append, List.nil_append]
  rw [keepalive_okEnv 1 2 (3/10) ⟨20000000, []⟩ "tx" "s" [(0, 3/10), (1, 3/10)]
    (by rw [hc3])]

/-- C5 amended: with cap $1.00 and micro-buy $0.30, in a run of
consecutive successful inactive-and-buy cycles within one 24-hour window
the first THREE buys are admitted and succeed (cumulative $0.90 ≤ $1.00)
and the FOURTH is rejected by the Spend Guard ($0.90 + $0.30 > $1.00). -/
theorem scenario1_amended (q : ProbeQuote) (tx sig : String) (t1 t2 t3 t4 : ℚ)
    (_h12 : t1 ≤ t2) (h23 : t2 ≤ t3) (h34 : t3 ≤ t4) (hw : t4 ≤ t1 + 24) :
    runSpends 1 false (mkOkEnv q tx sig) []
        [(t1, 3/10), (t2, 3/10), (t3, 3/10), (t4, 3/10)] =
      [Except.ok sig, Except.ok sig, Except.ok sig,
       Except.error "Daily cap reached"] := by
  have hk2 : ¬ t1 < t2 - 24 := by intro hlt; linarith
  have hk3 : ¬ t1 < t3 - 24 := by intro hlt; linarith
  have hk4 : ¬ t1 < t4 - 24 := by intro hlt; linarith
  have hc1 : can_spend_usd 1 t1 (3/10) [] = (true, []) := by
    rw [can_spend_nil_eval]
    norm_num
  have hc2 : can_spend_usd 1 t2 (3/10) [(t1, 3/10)] = (true, [(t1, 3/10)]) := by
    rw [can_spend_cons_eval 1 t2 (3/10) t1 (3/10) [] hk2]
    norm_num [spentSum]
  have hc3 : can_spend_usd 1 t3 (3/10) [(t1, 3/10), (t2, 3/10)] =
      (true, [(t1, 3/10), (t2, 3/10)]) := by
    rw [can_spend_cons_eval 1 t3 (3/10) t1 (3/10) [(t2, 3/10)] hk3]
    norm_num [spentSum]
  have hc4 : can_spend_usd 1 t4 (3/10) [(t1, 3/10), (t2, 3/10), (t3, 3/10)] =
      (false, [(t1, 3/10), (t2, 3/10), (t3, 3/10)]) := by
    rw [can_spend_cons_eval 1 t4 (3/10) t1 (3/10) [(t2, 3/10), (t3, 3/10)] hk4]
    norm_num [spentSum]
  simp only [runSpends]
  rw [keepalive_okEnv 1 t1 (3/10) q tx sig [] (by rw [hc1])]
  simp only [hc1, record_spend_usd, List.nil_append]
  rw [keepalive_okEnv 1 t2 (3/10) q tx sig [(t1, 3/10)] (by rw [hc2])]
  simp only [hc2, record_spend_usd, List.cons_append, List.nil_append]
  rw [keepalive_okEnv 1 t3 (3/10) q tx sig [(t1, 3/10), (t2, 3/10)] (by rw [hc3])]
  simp only [hc3, record_spend_usd, List.cons_append, List.nil_append]
  rw [keepalive_reject 1 false t4 (3/10) (mkOkEnv q tx sig)
    [(t1, 3/10), (t2, 3/10), (t3, 3/10)] (by rw [hc4])]

/-- C5 amended witness: concrete times 0, 1, 2, 3 within one day. -/
theorem scenario1_amended_witness :
    runSpends 1 false (mkOkEnv ⟨20000000, []⟩ "tx" "s") []
        [(0, 3/10), (1, 3/10), (2, 3/10), (3, 3/10)] =
      [Except.ok "s", Except.ok "s", Except.ok "s",
       Except.error "Daily cap reached"] :=
  scenario1_amended ⟨20000000, []⟩ "tx" "s" 0 1 2 3 (by decide) (by decide)
    (by decide) (le_trans (by decide : (3:ℚ) ≤ 24) (le_of_eq (zero_add 24).symm))

/-- Whether a call result is a success (no exception). -/
def isOkE (r : Except String String) : Bool :=
  match r with
  | .ok _ => true
  | .error _ => false

/-- The per-call data of one keep-alive execution in a sequence: the
wall-clock time of the call, the USD amount attempted, and the network
responses seen. -/
structure KAStepInput where
  now : ℚ
  amount : ℚ
  env : KAEnv

/-- The pruning loop only ever removes a prefix, so its result is a
suffix of the ledger. -/
lemma pruneFront_suffix (c : ℚ) : ∀ l : SpendLedger, pruneFront c l <:+ l := by
  intro l
  induction l with
  | nil => exact List.suffix_refl []
  | cons e rest ih =>
    obtain ⟨t, a⟩ := e
    by_cases ht : t < c
    · rw [pruneFront, if_pos ht]
      exact ih.trans (List.suffix_cons (t, a) rest)
    · rw [pruneFront, if_neg ht]

/-- The ledger after `do_keepalive_once` is either exactly the pruned
ledger, or the pruned ledger with the new spend recorded. -/
lemma keepalive_ledger_cases (cap : ℚ) (dry : Bool) (now a : ℚ) (env : KAEnv)
    (l : SpendLedger) :
    (do_keepalive_once cap dry now a env l).2.1 = (can_spend_usd cap now a l).2 ∨
      (do_keepalive_once cap dry now a env l).2.1 =
        record_spend_usd now a (can_spend_usd cap now a l).2 := by
  rcases hc : can_spend_usd cap now a l with ⟨ok, l1⟩
  cases ok
  · left
    simp [do_keepalive_once, hc]
  · rcases env with ⟨probe, net⟩
    cases probe with
    | error e =>
      left
      simp [do_keepalive_once, hc, get_usd_to_input_mint_amount]
    | ok q =>
      rcases hbs : build_and_send_swap dry net (usdToLamports q a) with ⟨r, effs⟩
      cases r with
      | error e =>
        left
        simp [do_keepalive_once, hc, get_usd_to_input_mint_amount, hbs]
      | ok sig =>
        cases dry
        · right
          simp [do_keepalive_once, hc, get_usd_to_input_mint_amount, hbs]
        · left
          simp [do_keepalive_once, hc, get_usd_to_input_mint_amount, hbs]

/-- Outside dry-run mode, a successful `do_keepalive_once` implies the
guard admitted the amount and the ledger is the pruned ledger with the
spend recorded. -/
lemma keepalive_recorded_chars (cap now a : ℚ) (env : KAEnv) (l : SpendLedger)
    (hok : isOkE (do_keepalive_once cap false now a env l).1 = true) :
    (can_spend_usd cap now a l).1 = true ∧
      (do_keepalive_once cap false now a env l).2.1 =
        record_spend_usd now a (can_spend_usd cap now a l).2 := by
  rcases hc : can_spend_usd cap now a l with ⟨ok, l1⟩
  cases ok
  · exfalso
    simp [do_keepalive_once, hc, isOkE] at hok
  · refine ⟨rfl, ?_⟩
    rcases env with ⟨probe, net⟩
    cases probe with
    | error e =>
      exfalso
      simp [do_keepalive_once, hc, get_usd_to_input_mint_amount, isOkE] at hok
    | ok q =>
      rcases hbs : build_and_send_swap false net (usdToLamports q a) with ⟨r, effs⟩
      cases r with
      | error e =>
        exfalso
        simp [do_keepalive_once, hc, get_usd_to_input_mint_amount, hbs, isOkE] at hok
      | ok sig =>
        simp [do_keepalive_once, hc, get_usd_to_input_mint_amount, hbs]

/-- After an admitted spend is recorded on the pruned ledger, the
trailing-24h sum is still within the cap. -/
lemma fresh_after_record (cap now a : ℚ) (l : SpendLedger) (hs : TimeSorted l)
    (hok : (can_spend_usd cap now a l).1 = true) :
    freshSum now (record_spend_usd now a (can_spend_usd cap now a l).2) ≤ cap := by
  rw [can_spend_usd_eq cap now a l hs] at hok ⊢
  have hsum : freshSum now l + a ≤ cap := of_decide_eq_true hok
  have hfilter :
      (l.filter fun e => decide (now - 24 ≤ e.1)).filter
          (fun e => decide (now - 24 ≤ e.1)) =
        l.filter fun e => decide (now - 24 ≤ e.1) :=
    List.filter_eq_self.mpr fun x hx => (List.mem_filter.mp hx).2
  have hnew : (now : ℚ) - 24 ≤ now := by linarith
  simp only [record_spend_usd, freshSum, List.filter_append, hfilter,
    List.filter_cons, hnew, decide_True, if_true, List.filter_nil, spentSum,
    List.map_append, List.sum_append, List.map_cons, List.map_nil,
    List.sum_cons, List.sum_nil]
  simp only [freshSum, spentSum] at hsum
  linarith

/-- One keep-alive call preserves the ledger invariants (sortedness and
timestamps bounded by the call time), and when it records a spend the
trailing-24h total stays within the cap. -/
lemma keepalive_step_inv (cap : ℚ) (dry : Bool) (now a : ℚ) (env : KAEnv)
    (l : SpendLedger) (hs : TimeSorted l) (hb : ∀ e ∈ l, e.1 ≤ now) :
    TimeSorted (do_keepalive_once cap dry now a env l).2.1 ∧
      (∀ e ∈ (do_keepalive_once cap dry now a env l).2.1, e.1 ≤ now) ∧
      (dry = false → isOkE (do_keepalive_once cap dry now a env l).1 = true →
        freshSum now (do_keepalive_once cap dry now a env l).2.1 ≤ cap) := by
  have hsuf : (can_spend_usd cap now a l).2 <:+ l := pruneFront_suffix (now - 24) l
  have hs1 : TimeSorted (can_spend_usd cap now a l).2 :=
    List.Pairwise.sublist hsuf.sublist hs
  have hb1 : ∀ e ∈ (can_spend_usd cap now a l).2, e.1 ≤ now :=
    fun e he => hb e (hsuf.sublist.subset he)
  have hs2 : TimeSorted (record_spend_usd now a (can_spend_usd cap now a l).2) := by
    rw [record_spend_usd, TimeSorted, List.pairwise_append]
    refine ⟨hs1, List.pairwise_singleton _ _, ?_⟩
    intro e he f hf
    rw [List.mem_singleton] at hf
    subst hf
    exact hb1 e he
  have hb2 : ∀ e ∈ record_spend_usd now a (can_spend_usd cap now a l).2,
      e.1 ≤ now := by
    intro e he
    rw [record_spend_usd, List.mem_append] at he
    cases he with
    | inl h => exact hb1 e h
    | inr h =>
      rw [List.mem_singleton] at h
      subst h
      exact le_refl now
  refine ⟨?_, ?_, ?_⟩
  · rcases keepalive_ledger_cases cap dry now a env l with h | h
    · rw [h]; exact hs1
    · rw [h]; exact hs2
  · rcases keepalive_ledger_cases cap dry now a env l with h | h
    · rw [h]; exact hb1
    · rw [h]; exact hb2
  · intro hdry hok
    subst hdry
    obtain ⟨hcs, hrec⟩ := keepalive_recorded_chars cap now a env l hok
    rw [hrec]
    exact fresh_after_record cap now a l hs hcs

/-- Boolean check of the C2 invariant along a run: after every recording
call (non-dry-run success), the trailing-24h recorded total is within the
cap. -/
def recordedSafeB (cap : ℚ) (dry : Bool) : SpendLedger → List KAStepInput → Bool
  | _, [] => true
  | l, s :: rest =>
    let o := do_keepalive_once cap dry s.now s.amount s.env l
    (if dry = false ∧ isOkE o.1 = true then decide (freshSum s.now o.2.1 ≤ cap)
     else true) &&
      recordedSafeB cap dry o.2.1 rest

/-- The invariant check passes from any well-formed ledger state, for
calls at nondecreasing times. -/
lemma recordedSafeB_sound (cap : ℚ) (dry : Bool) :
    ∀ (inputs : List KAStepInput) (t0 : ℚ) (l : SpendLedger),
      TimeSorted l → (∀ e ∈ l, e.1 ≤ t0) →
      List.Chain' (· ≤ ·) (t0 :: inputs.map KAStepInput.now) →
      recordedSafeB cap dry l inputs = true := by
  intro inputs
  induction inputs with
  | nil =>
    intro t0 l _ _ _
    rfl
  | cons s rest ih =>
    intro t0 l hs hb hchain
    rw [List.map_cons, List.chain'_cons] at hchain
    obtain ⟨h0, hchain'⟩ := hchain
    have hb' : ∀ e ∈ l, e.1 ≤ s.now := fun e he => le_trans (hb e he) h0
    obtain ⟨hs1, hb1, hsafe⟩ :=
      keepalive_step_inv cap dry s.now s.amount s.env l hs hb'
    simp only [recordedSafeB, Bool.and_eq_true]
    constructor
    · split_ifs with hcond
      · exact decide_eq_true (hsafe hcond.1 hcond.2)
      · rfl
    · exact ih s.now _ hs1 hb1 hchain'

/-- C2: along every sequence of keep-alive executions starting from the
empty ledger, with call times nondecreasing, the sum of recorded amounts
whose timestamps lie within the trailing 24 hours never exceeds the daily
cap immediately after any recording (`do_keepalive_once` records only
after `can_spend_usd` admits the same amount). -/
theorem spend_guard_cap_invariant (cap : ℚ) (dry : Bool)
    (inputs : List KAStepInput)
    (hmono : List.Chain' (· ≤ ·) (inputs.map KAStepInput.now)) :
    recordedSafeB cap dry [] inputs = true := by
  cases inputs with
  | nil => rfl
  | cons s rest =>
    rw [List.map_cons] at hmono
    apply recordedSafeB_sound cap dry (s :: rest) s.now []
    · exact List.Pairwise.nil
    · intro e he
      exact absurd he (List.not_mem_nil e)
    · rw [List.map_cons]
      exact List.chain'_cons.mpr ⟨le_refl s.now, hmono⟩

/-- C2 witness: two recording calls of $0.30 against a $1.00 cap at times
0 and 1, both through the all-successful environment. -/
theorem spend_guard_cap_invariant_witness :
    recordedSafeB 1 false []
        [⟨0, 3/10, mkOkEnv ⟨20000000, []⟩ "tx" "s"⟩,
         ⟨1, 3/10, mkOkEnv ⟨20000000, []⟩ "tx" "s"⟩] = true :=
  spend_guard_cap_invariant 1 false
    [⟨0, 3/10, mkOkEnv ⟨20000000, []⟩ "tx" "s"⟩,
     ⟨1, 3/10, mkOkEnv ⟨20000000, []⟩ "tx" "s"⟩]
    (List.chain'_cons.mpr ⟨by decide, List.chain'_singleton 1⟩)

/-- Observable events of one orchestrator cycle. -/
inductive Ev
  | noBuy
  | primaryAttempt
  | fallbackAttempt
  | caught
  | sleep
deriving DecidableEq

/-- The configuration seen by `main_loop`. -/
structure BotConfig where
  cap : ℚ
  dryRun : Bool
  testMode : Bool
  mockInactive : Bool
  microBuyUsd : ℚ
  fallbackBuyUsd : ℚ

/-- The external data one cycle of `main_loop` runs against. -/
structure CycleInput where
  now : ℚ
  activity : Except String (Option (List DexPair))
  primaryEnv : KAEnv
  fallbackEnv : KAEnv

/-- The body of one `while True` iteration of `main_loop`, inside the
outer `try`: activity check, then primary buy, then — only if the primary
raised, `MICRO_BUY_USD < FALLBACK_BUY_USD`, and the guard separately
admits the fallback amount — one fallback buy whose own failure is caught
and swallowed.  An `.error` result is an exception escaping the body to
the outer handler (only the activity check can raise here; both buy
attempts sit in their own `try`). -/
def cycleBody (cfg : BotConfig) (l : SpendLedger) (inp : CycleInput) :
    Except String (SpendLedger × List Ev) :=
  match activity_ok cfg.mockInactive cfg.testMode inp.activity with
  | .error e => .error e
  | .ok true => .ok (l, [Ev.noBuy])
  | .ok false =>
    let o1 := do_keepalive_once cfg.cap cfg.dryRun inp.now cfg.microBuyUsd
      inp.primaryEnv l
    match o1.1 with
    | .ok _ => .ok (o1.2.1, [Ev.primaryAttempt])
    | .error _ =>
      if cfg.microBuyUsd < cfg.fallbackBuyUsd then
        match can_spend_usd cfg.cap inp.now cfg.fallbackBuyUsd o1.2.1 with
        | (true, l2) =>
          let o2 := do_keepalive_once cfg.cap cfg.dryRun inp.now
            cfg.fallbackBuyUsd inp.fallbackEnv l2
          .ok (o2.2.1, [Ev.primaryAttempt, Ev.fallbackAttempt])
        | (false, l2) => .ok (l2, [Ev.primaryAttempt])
      else .ok (o1.2.1, [Ev.primaryAttempt])

/-- One full `while True` iteration: the outer `try/except` around the
body (an escaping exception is logged and swallowed, leaving the ledger
as it was), followed by the unconditional poll-interval sleep. -/
def loopStep (cfg : BotConfig) (l : SpendLedger) (inp : CycleInput) :
    SpendLedger × List Ev :=
  match cycleBody cfg l inp with
  | .ok (l2, evs) => (l2, evs ++ [Ev.sleep])
  | .error _ => (l, [Ev.caught, Ev.sleep])

/-- A finite prefix of the `main_loop` execution: one `loopStep` per
cycle input, threading the ledger; per cycle it returns the ledger after
the cycle and the cycle's events. -/
def main_loop_run (cfg : BotConfig) :
    SpendLedger → List CycleInput → List (SpendLedger × List Ev)
  | _, [] => []
  | l, inp :: rest =>
    let st := loopStep cfg l inp
    st :: main_loop_run cfg st.1 rest

/-- Every cycle ends by sleeping, whatever happened inside it. -/
lemma loopStep_last (cfg : BotConfig) (l : SpendLedger) (inp : CycleInput) :
    (loopStep cfg l inp).2.getLast? = some Ev.sleep := by
  unfold loopStep
  cases cycleBody cfg l inp with
  | error e => rfl
  | ok p =>
    obtain ⟨l2, evs⟩ := p
    simp [List.getLast?_concat]

/-- C9: every exception escaping a cycle body is caught by the loop: a
run over any sequence of cycle inputs processes every cycle (none is
skipped and the loop never terminates early), and every cycle — success,
no-op or failure — ends with the poll-interval sleep before the next one
starts. -/
theorem loop_resilience (cfg : BotConfig) (l : SpendLedger)
    (inps : List CycleInput) :
    (main_loop_run cfg l inps).length = inps.length ∧
      ∀ st ∈ main_loop_run cfg l inps, st.2.getLast? = some Ev.sleep := by
  induction inps generalizing l with
  | nil => exact ⟨rfl, fun st hst => absurd hst (List.not_mem_nil st)⟩
  | cons inp rest ih =>
    constructor
    · simp only [main_loop_run, List.length_cons]
      exact congrArg Nat.succ (ih _).1
    · intro st hst
      simp only [main_loop_run, List.mem_cons] at hst
      cases hst with
      | inl h =>
        subst h
        exact loopStep_last cfg l inp
      | inr h => exact (ih _).2 st h

/-- C9 witness: a two-cycle run in which the first cycle's activity check
raises and the second proceeds normally. -/
theorem loop_resilience_witness :
    (main_loop_run ⟨1, false, false, false, 3/10, 1/2⟩ []
        [⟨0, Except.error "boom", mkOkEnv ⟨20000000, []⟩ "tx" "s",
          mkOkEnv ⟨20000000, []⟩ "tx" "s"⟩,
         ⟨1, Except.ok none, mkOkEnv ⟨20000000, []⟩ "tx" "s",
          mkOkEnv ⟨20000000, []⟩ "tx" "s"⟩]).length = 2 ∧
      ∀ st ∈ main_loop_run ⟨1, false, false, false, 3/10, 1/2⟩ []
          [⟨0, Except.error "boom", mkOkEnv ⟨20000000, []⟩ "tx" "s",
            mkOkEnv ⟨20000000, []⟩ "tx" "s"⟩,
           ⟨1, Except.ok none, mkOkEnv ⟨20000000, []⟩ "tx" "s",
            mkOkEnv ⟨20000000, []⟩ "tx" "s"⟩],
        st.2.getLast? = some Ev.sleep :=
  loop_resilience ⟨1, false, false, false, 3/10, 1/2⟩ []
    [⟨0, Except.error "boom", mkOkEnv ⟨20000000, []⟩ "tx" "s",
      mkOkEnv ⟨20000000, []⟩ "tx" "s"⟩,
     ⟨1, Except.ok none, mkOkEnv ⟨20000000, []⟩ "tx" "s",
      mkOkEnv ⟨20000000, []⟩ "tx" "s"⟩]

/-- C7: in every cycle that reaches the buying branch, a fallback buy is
attempted exactly when the primary attempt failed, the micro-buy amount
is strictly below the fallback amount, and the Spend Guard separately
admits the fallback amount; at most one fallback attempt happens per
cycle, and even a failing fallback leaves the cycle body returning
normally (its exception is swallowed). -/
theorem fallback_policy (cfg : BotConfig) (l : SpendLedger) (inp : CycleInput)
    (hact : activity_ok cfg.mockInactive cfg.testMode inp.activity =
      Except.ok false) :
    ∃ l2 evs, cycleBody cfg l inp = Except.ok (l2, evs) ∧
      (Ev.fallbackAttempt ∈ evs ↔
        (isOkE (do_keepalive_once cfg.cap cfg.dryRun inp.now cfg.microBuyUsd
            inp.primaryEnv l).1 = false ∧
          cfg.microBuyUsd < cfg.fallbackBuyUsd ∧
          (can_spend_usd cfg.cap inp.now cfg.fallbackBuyUsd
            (do_keepalive_once cfg.cap cfg.dryRun inp.now cfg.microBuyUsd
              inp.primaryEnv l).2.1).1 = true)) ∧
      evs.count Ev.fallbackAttempt ≤ 1 := by
  cases hr : (do_keepalive_once cfg.cap cfg.dryRun inp.now cfg.microBuyUsd
      inp.primaryEnv l).1 with
  | ok s =>
    refine ⟨(do_keepalive_once cfg.cap cfg.dryRun inp.now cfg.microBuyUsd
      inp.primaryEnv l).2.1, [Ev.primaryAttempt], ?_, ?_, by decide⟩
    · simp only [cycleBody, hact, hr]
    · apply iff_of_false
      · decide
      · intro hcon
        simp [isOkE] at hcon
  | error e =>
    by_cases hlt : cfg.microBuyUsd < cfg.fallbackBuyUsd
    · rcases hcs : can_spend_usd cfg.cap inp.now cfg.fallbackBuyUsd
          (do_keepalive_once cfg.cap cfg.dryRun inp.now cfg.microBuyUsd
            inp.primaryEnv l).2.1 with ⟨ok2, l2⟩
      cases ok2
      · refine ⟨l2, [Ev.primaryAttempt], ?_, ?_, by decide⟩
        · simp only [cycleBody, hact, hr, if_pos hlt, hcs]
        · apply iff_of_false
          · decide
          · intro hcon
            exact Bool.false_ne_true hcon.2.2
      · refine ⟨(do_keepalive_once cfg.cap cfg.dryRun inp.now cfg.fallbackBuyUsd
          inp.fallbackEnv l2).2.1, [Ev.primaryAttempt, Ev.fallbackAttempt],
          ?_, ?_, by decide⟩
        · simp only [cycleBody, hact, hr, if_pos hlt, hcs]
        · apply iff_of_true
          · decide
          · exact ⟨rfl, hlt, rfl⟩
    · refine ⟨(do_keepalive_once cfg.cap cfg.dryRun inp.now cfg.microBuyUsd
        inp.primaryEnv l).2.1, [Ev.primaryAttempt], ?_, ?_, by decide⟩
      · simp only [cycleBody, hact, hr, if_neg hlt]
      · apply iff_of_false
        · decide
        · intro hcon
          exact hlt hcon.2.1

/-- C7 witness: a cycle with the inactivity override on, a primary
attempt that fails at the swap-build stage, and an admissible $0.50
fallback after a failed $0.30 primary under a $1.00 cap. -/
theorem fallback_policy_witness :
    ∃ l2 evs,
      cycleBody ⟨1, false, false, true, 3/10, 1/2⟩ []
          ⟨0, Except.ok none,
           ⟨Except.ok ⟨20000000, []⟩,
            ⟨Except.ok (), Except.error "swap api down", Except.ok (some "s")⟩⟩,
           mkOkEnv ⟨20000000, []⟩ "tx" "s"⟩ = Except.ok (l2, evs) ∧
        (Ev.fallbackAttempt ∈ evs ↔
          (isOkE (do_keepalive_once 1 false 0 (3/10)
              ⟨Except.ok ⟨20000000, []⟩,
               ⟨Except.ok (), Except.error "swap api down",
                Except.ok (some "s")⟩⟩ []).1 = false ∧
            (3/10 : ℚ) < 1/2 ∧
            (can_spend_usd 1 0 (1/2)
              (do_keepalive_once 1 false 0 (3/10)
                ⟨Except.ok ⟨20000000, []⟩,
                 ⟨Except.ok (), Except.error "swap api down",
                  Except.ok (some "s")⟩⟩ []).2.1).1 = true)) ∧
        evs.count Ev.fallbackAttempt ≤ 1 :=
  fallback_policy ⟨1, false, false, true, 3/10, 1/2⟩ []
    ⟨0, Except.ok none,
     ⟨Except.ok ⟨20000000, []⟩,
      ⟨Except.ok (), Except.error "swap api down", Except.ok (some "s")⟩⟩,
     mkOkEnv ⟨20000000, []⟩ "tx" "s"⟩ rfl
